import Mathlib

/-!
Verification development for the word-level RNN language-model notebook
(`keras_rnn_generation.ipynb`): sequence padding, input/target slicing,
masked-loss accounting, the stateful training epoch loop, the stateful
predict/reset lifecycle, and the autoregressive generation loop.

Every definition is a shallow embedding of the corresponding notebook cell
(cell numbers cited in the doc comments); probabilities are modelled as
rationals, float NaN propagation by an explicit `Val` type, and the
generation while-loop by an explicit step budget (`fuel`) so that
non-termination is observable as exhausting every budget.
-/

namespace KerasRNN

/-! # Definitions -/

/-! ## SequenceBatcher: `pad_sequences` (cell-10) -/

/-- Embedding of `keras.preprocessing.sequence.pad_sequences` applied to one
sequence, with the notebook's (default) settings `padding='pre'`,
`truncating='pre'`, `value=0`: a sequence longer than `maxlen` keeps only its
last `maxlen` entries; a shorter one is left-padded with zeros up to
`maxlen`. -/
def pad_sequences (maxlen : Nat) (s : List Nat) : List Nat :=
  if maxlen ≤ s.length then s.drop (s.length - maxlen)
  else List.replicate (maxlen - s.length) 0 ++ s

/-- Stripping the leading padding zeros from a padded row (the inverse
direction of the padding round-trip property). -/
def stripLeadingZeros (s : List Nat) : List Nat :=
  s.dropWhile (fun x => x == 0)

/-! ## Input/target slicing (cell-12): `train_x = m[:, :-1]`, `train_y = m[:, 1:]` -/

/-- Per-row embedding of `train_idxs[:, :-1]` (cell-12): the model input is
the row without its last column. -/
def train_x (row : List Nat) : List Nat := row.dropLast

/-- Per-row embedding of `train_idxs[:, 1:]` (cell-12): the training target is
the row without its first column. -/
def train_y (row : List Nat) : List Nat := row.drop 1

/-! ## Masked loss accounting (cell-14 `Embedding(mask_zero=True)` + cell-18)

Keras computes the loss mask from the `Embedding` layer's *input*: with
`mask_zero=True` the mask at timestep `t` is `input[t] != 0`, it is passed
through the `GRU`/`TimeDistributed` layers unchanged, and the per-position
cross-entropy terms are multiplied by it before averaging.  Hence a loss term
for a row contributes exactly when the input token at that position is
non-zero. -/

/-- Number of loss terms the masked categorical cross-entropy keeps for one
padded row: positions of `train_x row` (the model input) whose token id is
non-zero, which is what `Embedding(mask_zero=True)` masks on. -/
def maskedLossTermCount (row : List Nat) : Nat :=
  ((train_x row).filter (fun w => w != 0)).length

/-- Modelled from the spec's words (for comparison with the code's behaviour):
the number of loss terms that would remain if terms were excluded exactly at
positions where the *target* is 0, as the spec asserts. -/
def targetMaskTermCount (row : List Nat) : Nat :=
  ((train_y row).filter (fun w => w != 0)).length

/-! ## Trainer: the per-epoch loop of cell-18

The loop body is, for each mini-batch `b`:
`loss = rnn.train_on_batch(batch_x, batch_y)` (forward pass from the current
parameters and hidden state, loss computation, one optimizer step),
`losses.append(loss)`, `rnn.reset_states()`; after the loop,
`numpy.mean(losses)` is reported.  Losses are floats, so a non-finite value is
modelled by an explicit `nan` constructor that propagates through sums and
means exactly as IEEE NaN does through `numpy.mean`. -/

/-- A float loss value: either a finite number or NaN (any non-finite
value). -/
inductive Val where
  | num (q : ℚ) : Val
  | nan : Val
deriving DecidableEq

/-- Float addition: NaN absorbs. -/
def Val.add : Val → Val → Val
  | Val.num a, Val.num b => Val.num (a + b)
  | _, _ => Val.nan

/-- Sum of a list of float values, as `numpy` folds it. -/
def valSum (l : List Val) : Val :=
  l.foldl Val.add (Val.num 0)

/-- Embedding of `numpy.mean` on a list of float values: NaN anywhere (or an
empty list) makes the mean NaN. -/
def valMean (l : List Val) : Val :=
  match valSum l with
  | Val.num q => if l.length = 0 then Val.nan else Val.num (q / (l.length : ℚ))
  | Val.nan => Val.nan

/-- The pieces of `rnn.train_on_batch` + `rnn.reset_states()` that the epoch
loop of cell-18 exercises, over abstract parameter (`P`), hidden-state (`σ`),
mini-batch (`B`) and prediction-output (`O`) types: the forward pass
(`predictB`), the batch loss (`loss`), the optimizer update of the parameters
(`update`), and the zero state that `reset_states()` restores
(`zeroState`). -/
structure TrainCfg (P σ B O : Type) where
  predictB : P → σ → B → O
  loss : P → σ → B → Val
  update : P → B → P
  zeroState : σ

/-- The forward-pass outputs the epoch loop of cell-18 produces for each
mini-batch: each batch is predicted from the current parameters and hidden
state, then the parameters are updated and the hidden state reset to zero
before the next batch. -/
def epochOutputs {P σ B O : Type} (cfg : TrainCfg P σ B O) : P → σ → List B → List O
  | _, _, [] => []
  | p, s, b :: bs =>
      cfg.predictB p s b :: epochOutputs cfg (cfg.update p b) cfg.zeroState bs

/-- The `losses` list the epoch loop of cell-18 accumulates: every batch's
loss is appended unconditionally, then parameters update and the state is
reset. -/
def epochLossList {P σ B O : Type} (cfg : TrainCfg P σ B O) : P → σ → List B → List Val
  | _, _, [] => []
  | p, s, b :: bs =>
      cfg.loss p s b :: epochLossList cfg (cfg.update p b) cfg.zeroState bs

/-- The epoch mean loss reported by cell-18: `numpy.mean(losses)`. -/
def epochMeanLoss {P σ B O : Type} (cfg : TrainCfg P σ B O) (p : P) (s : σ)
    (bs : List B) : Val :=
  valMean (epochLossList cfg p s bs)

/-- Concrete trainer instantiation used to witness C3. -/
def cfg3 : TrainCfg Nat Nat Nat Nat where
  predictB := fun p s b => p * 100 + s * 10 + b
  loss := fun _ _ _ => Val.num 0
  update := fun p b => p + b
  zeroState := 0

/-- Concrete trainer instantiation used for C5: the first mini-batch diverges
(NaN loss), the second behaves normally. -/
def cfg5 : TrainCfg Nat Unit Nat Nat where
  predictB := fun _ _ b => b
  loss := fun _ _ b => if b = 1 then Val.nan else Val.num 1
  update := fun p _ => p
  zeroState := ()

/-! ## Stateful model lifecycle (cell-14 `GRU(stateful=True)` + `reset_states`)

A stateful Keras model holds mutable learned parameters and a mutable hidden
state; `predict` advances the state, `reset_states()` zeroes it without
touching the parameters, and a freshly built model starts from the zero
state.  The step function is kept abstract: the lifecycle claims hold for any
recurrent cell. -/

/-- An architecture: a step function from parameters, hidden state and one
input to an output and the successor hidden state, together with the
all-zeros initial state `reset_states()` restores. -/
structure StatefulModel (P σ I O : Type) where
  step : P → σ → I → O × σ
  zeroState : σ

/-- A running model instance: its (loaded) parameters and its current hidden
state buffer. -/
structure Running (P σ : Type) where
  params : P
  state : σ

/-- Embedding of `predict_on_batch` on a stateful model: computes the output
from the current parameters and hidden state and advances the state in
place. -/
def predictSt {P σ I O : Type} (M : StatefulModel P σ I O) (r : Running P σ)
    (x : I) : O × Running P σ :=
  let os := M.step r.params r.state x
  (os.1, ⟨r.params, os.2⟩)

/-- Embedding of `reset_states()`: zero the hidden state, keep the
parameters. -/
def reset_states {P σ I O : Type} (M : StatefulModel P σ I O)
    (r : Running P σ) : Running P σ :=
  ⟨r.params, M.zeroState⟩

/-- A freshly constructed model with parameters `p` (e.g. built by
`create_rnn` and loaded via `load_weights`): its hidden state starts at
zero. -/
def freshModel {P σ I O : Type} (M : StatefulModel P σ I O) (p : P) :
    Running P σ :=
  ⟨p, M.zeroState⟩

/-! ## Generator (cell-24 and cell-28)

Cell-28 processes one story as follows, with `generated_ending = []` and no
prior assignment to `p_next_word` on the first story:

reading loop — for each context token, `p_next_word =
generation_rnn.predict_on_batch(token)[0,-1]` (distributions of all but the
last call are discarded);

sampling loop — `while not generated_ending or
lexicon_lookup[next_word][-1] not in eos_tokens:` sample `next_word =
numpy.random.choice(a=p_next_word.shape[-1], p=p_next_word)`, append it, and
advance `p_next_word = generation_rnn.predict_on_batch(next_word)[0,-1]`.

The embedding makes the Python failure modes explicit (`GenError`): reading
an empty context leaves `p_next_word` unbound (NameError at its first use),
a sampled id absent from `lexicon_lookup` raises KeyError at the loop
condition, and the loop itself has no step bound, so running out of any
finite step budget (`fuelExhausted`) witnesses non-termination. -/

/-- A categorical distribution over token ids `0 .. lexicon_size`, the
`p_next_word` softmax row. -/
abbrev Dist : Type := List ℚ

/-- The ways a generation step of cell-28 can fail (Python exceptions). -/
inductive GenError where
  | nameError : GenError
  | keyError (w : Nat) : GenError
  | indexError : GenError
  | fuelExhausted : GenError
deriving DecidableEq

/-- Embedding of cell-24: `eos_tokens = [".", "?", "!"]`. -/
def eos_tokens : List String := [".", "?", "!"]

/-- Embedding of cell-24's reverse lookup table `lexicon_lookup = {index:
word for word, index in tokenizer.word_index.items()}`, as a partial map from
ids to words. -/
def mkLexiconLookup (wordIndex : List (String × Nat)) : Nat → Option String :=
  fun i => (wordIndex.map (fun pr => (pr.2, pr.1))).lookup i

/-- The loop condition's stop check `lexicon_lookup[next_word][-1] in
eos_tokens`: a missing id raises KeyError, indexing `[-1]` into an empty word
raises IndexError, otherwise the word's final character (a one-character
string in Python) is tested for membership in `eos_tokens`. -/
def stopCheck (lookup : Nat → Option String) (w : Nat) : Except GenError Bool :=
  match lookup w with
  | none => Except.error (GenError.keyError w)
  | some str =>
    match str.data.getLast? with
    | none => Except.error GenError.indexError
    | some c => Except.ok (eos_tokens.contains (String.mk [c]))

/-- The pieces of cell-28's generation loop, over an abstract hidden-state
type `σ`: `predict` is `predict_on_batch` on a single token (advancing the
hidden state and returning the `[0,-1]` distribution), `pick` is the injected
random source standing for `numpy.random.choice(a=p.shape[-1], p=p)`,
`lookup` is `lexicon_lookup`, and `s0` is the hidden state at entry (zero for
a fresh or freshly reset model). -/
structure GenCfg (σ : Type) where
  predict : σ → Nat → σ × Dist
  pick : Dist → Nat
  lookup : Nat → Option String
  s0 : σ

/-- The reading loop of cell-28: feed each context token, overwriting
`p_next_word` with each call's distribution; `p` is the value `p_next_word`
holds on entry (`none` when it was never assigned). -/
def readContext {σ : Type} (cfg : GenCfg σ) :
    σ → Option Dist → List Nat → σ × Option Dist
  | s, p, [] => (s, p)
  | s, _, w :: ws =>
    let pr := cfg.predict s w
    readContext cfg pr.1 (some pr.2) ws

/-- The sampling loop of cell-28, with an explicit step budget `fuel`: each
iteration samples `w` from the current distribution, appends it to the
generated ending, advances the model, and then the loop condition checks
whether `w`'s surface form ends in an end-of-sentence marker.  The loop
itself imposes no bound, so exhausting any finite budget is reported as
`fuelExhausted`. -/
def sampleLoop {σ : Type} (cfg : GenCfg σ) :
    Nat → σ → Dist → List Nat → Except GenError (List Nat)
  | 0, _, _, _ => Except.error GenError.fuelExhausted
  | fuel + 1, s, d, acc =>
    let w := cfg.pick d
    let pr := cfg.predict s w
    match stopCheck cfg.lookup w with
    | Except.error e => Except.error e
    | Except.ok true => Except.ok (acc ++ [w])
    | Except.ok false => sampleLoop cfg fuel pr.1 pr.2 (acc ++ [w])

/-- One story's pass through cell-28: read the context, then run the sampling
loop seeded with the distribution `p_next_word` holds after the reading loop;
if the context was empty and `p_next_word` was never previously assigned, its
first use in the sampling loop raises NameError. -/
def generate {σ : Type} (cfg : GenCfg σ) (pIn : Option Dist)
    (context : List Nat) (fuel : Nat) : Except GenError (List Nat) :=
  match readContext cfg cfg.s0 pIn context with
  | (_, none) => Except.error GenError.nameError
  | (s, some d) => sampleLoop cfg fuel s d []

/-- Termination of a `generate` call: some finite step budget suffices (the
call does not merely exhaust every budget). -/
def GenTerminates {σ : Type} (cfg : GenCfg σ) (pIn : Option Dist)
    (ctx : List Nat) : Prop :=
  ∃ fuel, generate cfg pIn ctx fuel ≠ Except.error GenError.fuelExhausted

/-- A model/sampler whose sampled token `7` always decodes to `"hello"`, which
never ends in an end-of-sentence marker. -/
def cfgBad : GenCfg Unit where
  predict := fun _ _ => ((), [(1 : ℚ)])
  pick := fun _ => 7
  lookup := fun _ => some ("hello")
  s0 := ()

/-- The distribution placing probability 1 on token `k` over ids
`0 .. V`. -/
def pointMass (V k : Nat) : Dist :=
  (List.range (V + 1)).map (fun i => if i = k then (1 : ℚ) else 0)

/-- The scenario vocabulary `{the: 1, cat: 2, sat: 3, ".": 4}` in
`tokenizer.word_index` form. -/
def demoWordIndex : List (String × Nat) :=
  [("the", 1), ("cat", 2), ("sat", 3), (".", 4)]

/-- The C4 test double: a model that emits id 4 (".") with probability 1 at
every step, over the scenario vocabulary, with the sampler left abstract. -/
def c4cfg (pick : Dist → Nat) : GenCfg Unit where
  predict := fun _ _ => ((), pointMass 4 4)
  pick := pick
  lookup := mkLexiconLookup demoWordIndex
  s0 := ()

/-- A concrete, fully specified model used for the C9 counterexample. -/
def cfg9 : GenCfg Unit where
  predict := fun _ _ => ((), pointMass 4 4)
  pick := fun _ => 4
  lookup := mkLexiconLookup demoWordIndex
  s0 := ()

/-- A concrete model whose sampler draws the padding id 0, used to witness
C10. -/
def cfg10 : GenCfg Unit where
  predict := fun _ _ => ((), pointMass 4 4)
  pick := fun _ => 0
  lookup := mkLexiconLookup demoWordIndex
  s0 := ()

/-! # Helper lemmas -/

lemma pad_sequences_eq (W : Nat) (s : List Nat) (h : s.length ≤ W) :
    pad_sequences W s = List.replicate (W - s.length) 0 ++ s := by
  unfold pad_sequences
  by_cases hW : W ≤ s.length
  · have hw : s.length = W := le_antisymm h hW
    simp [hW, hw]
  · simp [hW]

lemma dropWhile_zero_replicate (k : Nat) (s : List Nat) :
    (List.replicate k 0 ++ s).dropWhile (fun x => x == 0) =
      s.dropWhile (fun x => x == 0) := by
  induction k with
  | zero => simp
  | succ n ih => simp [List.replicate_succ, ih]

lemma dropWhile_zero_of_pos (s : List Nat) (h : ∀ x ∈ s, 0 < x) :
    s.dropWhile (fun x => x == 0) = s := by
  cases s with
  | nil => rfl
  | cons a t =>
    have ha : a ≠ 0 := Nat.pos_iff_ne_zero.mp (h a (List.mem_cons_self a t))
    simp [List.dropWhile_cons, ha]

lemma Val.nan_add (v : Val) : Val.add Val.nan v = Val.nan := by
  cases v <;> rfl

lemma Val.add_nan (v : Val) : Val.add v Val.nan = Val.nan := by
  cases v <;> rfl

lemma foldl_add_from_nan (l : List Val) : l.foldl Val.add Val.nan = Val.nan := by
  induction l with
  | nil => rfl
  | cons b t ih => simp [List.foldl, Val.nan_add, ih]

lemma foldl_add_nan_mem : ∀ (l : List Val) (a : Val), Val.nan ∈ l →
    l.foldl Val.add a = Val.nan := by
  intro l
  induction l with
  | nil =>
    intro a ha
    simp at ha
  | cons b t ih =>
    intro a ha
    rcases List.mem_cons.mp ha with hb | ht
    · subst hb
      simp [List.foldl, Val.add_nan, foldl_add_from_nan]
    · exact ih _ ht

lemma valSum_nan {l : List Val} (h : Val.nan ∈ l) : valSum l = Val.nan :=
  foldl_add_nan_mem l _ h

lemma sampleLoop_cfgBad (fuel : Nat) : ∀ (s : Unit) (d : Dist) (acc : List Nat),
    sampleLoop cfgBad fuel s d acc = Except.error GenError.fuelExhausted := by
  induction fuel with
  | zero => intro s d acc; rfl
  | succ n ih =>
    intro s d acc
    have h : stopCheck cfgBad.lookup (cfgBad.pick d) = Except.ok false := rfl
    simp only [sampleLoop, h]
    exact ih _ _ _

lemma pointMass_getD_ne {j : Nat} (hj : j ≠ 4) : (pointMass 4 4).getD j 0 = 0 := by
  have hpm : pointMass 4 4 = [0, 0, 0, 0, 1] := rfl
  rw [hpm]
  match j, hj with
  | 0, _ => rfl
  | 1, _ => rfl
  | 2, _ => rfl
  | 3, _ => rfl
  | 4, hj => exact absurd rfl hj
  | (n + 5), _ => exact List.getD_eq_default _ _ (by simp)

lemma mkLexiconLookup_zero (wi : List (String × Nat))
    (h : ∀ pr ∈ wi, pr.2 ≠ 0) : mkLexiconLookup wi 0 = none := by
  induction wi with
  | nil => rfl
  | cons a t ih =>
    have ha : a.2 ≠ 0 := h a (List.mem_cons_self a t)
    have ht := ih (fun pr hpr => h pr (List.mem_cons_of_mem a hpr))
    have hb : (0 == a.2) = false := beq_eq_false_iff_ne.mpr (Ne.symm ha)
    simp only [mkLexiconLookup, List.map_cons] at ht ⊢
    simp [List.lookup, hb, ht]

/-! # Claims -/

/-! ## C1: generation termination and the maximum-step cap -/

/-- Counterexample to C1: the notebook's generation loop has no maximum-step
cap, so termination is not guaranteed.  For the concrete model `cfgBad`
(which always samples a token whose surface form `"hello"` ends in no
end-of-sentence marker) and the one-token context `[1]`, no finite step
budget makes `generate` stop: every budget is exhausted, i.e. the sampling
loop exceeds every bound `M`. -/
theorem generate_not_terminating_counterexample :
    ¬ GenTerminates cfgBad none [1] := by
  rintro ⟨fuel, hne⟩
  apply hne
  have hrc : readContext cfgBad cfgBad.s0 none [1] = ((), some [(1 : ℚ)]) := rfl
  unfold generate
  rw [hrc]
  exact sampleLoop_cfgBad fuel () _ []

/-- C1 (amended): the code configures no maximum-step cap; the sampling loop
stops only when a sampled token's surface form ends in an end-of-sentence
marker.  Whenever the sampler's choices never decode to an
end-of-sentence-ending word, every finite step budget `fuel` is exhausted
(the loop never stops on its own), both for the bare sampling loop and for a
whole `generate` call whose reading phase produced a seed distribution. -/
theorem sampling_loop_unbounded_without_eos {σ : Type} (cfg : GenCfg σ)
    (h : ∀ d, stopCheck cfg.lookup (cfg.pick d) = Except.ok false) :
    (∀ fuel (s : σ) (d : Dist) (acc : List Nat),
      sampleLoop cfg fuel s d acc = Except.error GenError.fuelExhausted) ∧
    (∀ fuel pIn ctx (s : σ) (d : Dist),
      readContext cfg cfg.s0 pIn ctx = (s, some d) →
      generate cfg pIn ctx fuel = Except.error GenError.fuelExhausted) := by
  have main : ∀ fuel (s : σ) (d : Dist) (acc : List Nat),
      sampleLoop cfg fuel s d acc = Except.error GenError.fuelExhausted := by
    intro fuel
    induction fuel with
    | zero => intro s d acc; rfl
    | succ n ih =>
      intro s d acc
      simp only [sampleLoop, h d]
      exact ih _ _ _
  refine ⟨main, ?_⟩
  intro fuel pIn ctx s d hrc
  unfold generate
  rw [hrc]
  exact main fuel s d []

/-- Witness for the amended C1 at the concrete model `cfgBad` with step
budget 3. -/
theorem sampling_loop_unbounded_without_eos_witness :
    (∀ d, stopCheck cfgBad.lookup (cfgBad.pick d) = Except.ok false) ∧
    sampleLoop cfgBad 3 () [(1 : ℚ)] [] = Except.error GenError.fuelExhausted :=
  ⟨fun _ => rfl,
    (sampling_loop_unbounded_without_eos cfgBad (fun _ => rfl)).1 3 () [(1 : ℚ)] []⟩

/-! ## C2: masked-loss accounting for a one-real-token row -/

/-- Counterexample to C2: the padded row `[0, 0, 7]` holds exactly one real
token, yet the masked loss (whose mask `Embedding(mask_zero=True)` computes
from the *input* ids) keeps zero terms for it, not one; excluding terms at
`target == 0` positions instead would keep one term, so the two mask
conventions are not equivalent. -/
theorem masked_loss_single_token_counterexample :
    maskedLossTermCount [0, 0, 7] = 0 ∧ maskedLossTermCount [0, 0, 7] ≠ 1 ∧
    targetMaskTermCount [0, 0, 7] = 1 := by
  decide

/-- C2 (amended): the masked loss keeps a term exactly where the *input*
token id is non-zero, so a left-padded row built from a sequence of `L`
positive tokens contributes `L - 1` terms regardless of the width `W`; in
particular a row holding exactly one real token contributes zero terms. -/
theorem masked_loss_terms_of_padded_row (s : List Nat) (W : Nat)
    (hpos : ∀ x ∈ s, 0 < x) (hlen : s.length ≤ W) :
    maskedLossTermCount (pad_sequences W s) = s.length - 1 := by
  have hpad := pad_sequences_eq W s hlen
  rw [maskedLossTermCount, train_x, hpad]
  rcases eq_or_ne s ([] : List Nat) with hs | hs
  · subst hs
    have hz : ∀ x ∈ (List.replicate (W - 0) (0 : Nat) ++ []).dropLast, ¬(x != 0) = true := by
      intro x hx
      have : x ∈ List.replicate (W - 0) (0 : Nat) ++ [] := List.dropLast_subset _ hx
      simp at this
      simp [this]
    simp only [List.length_nil]
    rw [List.filter_eq_nil_iff.mpr hz]
    rfl
  · rw [List.dropLast_append_of_ne_nil _ hs, List.filter_append]
    have hrep : (List.replicate (W - s.length) (0 : Nat)).filter (fun w => w != 0) = [] := by
      simp
    have hkeep : (s.dropLast).filter (fun w => w != 0) = s.dropLast := by
      apply List.filter_eq_self.mpr
      intro a ha
      have : a ≠ 0 := Nat.pos_iff_ne_zero.mp (hpos a (List.dropLast_subset s ha))
      simp [this]
    rw [hrep, hkeep]
    simp

/-- Witness for the amended C2, at the concrete one-token sequence `[7]`
padded to width 3: the row contributes zero loss terms. -/
theorem masked_loss_terms_of_padded_row_witness :
    (∀ x ∈ ([7] : List Nat), 0 < x) ∧
    maskedLossTermCount (pad_sequences 3 [7]) = 0 :=
  ⟨by decide, masked_loss_terms_of_padded_row [7] 3 (by decide) (by decide)⟩

/-! ## C3: unconditional state reset between mini-batches -/

/-- C3: in the epoch loop, `reset_states()` runs after every optimization
step, so the hidden state entering every mini-batch's forward pass is the zero
state: the `i`-th prediction equals `predictB` applied to the parameters
accumulated from the first `i` updates, the *zero* state, and the `i`-th batch
alone — earlier mini-batches can influence it only through the explicit
parameter updates, never through a leaked hidden state. -/
theorem epoch_predictions_use_zero_state {P σ B O : Type}
    (cfg : TrainCfg P σ B O) (p : P) (bs : List B) (i : Nat)
    (h : i < bs.length) :
    (epochOutputs cfg p cfg.zeroState bs).get? i =
      some (cfg.predictB (List.foldl cfg.update p (bs.take i)) cfg.zeroState
        (bs.get ⟨i, h⟩)) := by
  induction bs generalizing p i with
  | nil => exact absurd h (by simp)
  | cons b bs ih =>
    cases i with
    | zero => rfl
    | succ j =>
      have hj : j < bs.length := by
        simpa using h
      simpa [epochOutputs] using ih (cfg.update p b) j hj

/-- Witness for C3 at a concrete two-batch epoch. -/
theorem epoch_predictions_use_zero_state_witness :
    (epochOutputs cfg3 0 cfg3.zeroState [1, 2]).get? 1 =
      some (cfg3.predictB (List.foldl cfg3.update 0 (([1, 2] : List Nat).take 1))
        cfg3.zeroState (([1, 2] : List Nat).get ⟨1, by decide⟩)) :=
  epoch_predictions_use_zero_state cfg3 0 [1, 2] 1 (by decide)

/-! ## C4: end-to-end point-mass scenario -/

/-- C4: with the scenario vocabulary, context `[1, 2, 3]` and a model that
puts all probability mass on id 4 (whose surface form `"."` ends in an
end-of-sentence marker), any sampler that draws a token of positive
probability makes `generate` return exactly `[4]` — one sampling step — and
the distribution seeding that first sampling step is the one produced by
feeding the last context token. -/
theorem generate_point_mass_eos_returns_single_token (pick : Dist → Nat)
    (h : 0 < (pointMass 4 4).getD (pick (pointMass 4 4)) 0) (fuel : Nat)
    (hf : 1 ≤ fuel) :
    generate (c4cfg pick) none [1, 2, 3] fuel = Except.ok [4] ∧
    (readContext (c4cfg pick) (c4cfg pick).s0 none [1, 2, 3]).2 =
      some (pointMass 4 4) := by
  have hp4 : pick (pointMass 4 4) = 4 := by
    by_contra hne
    rw [pointMass_getD_ne hne] at h
    exact lt_irrefl 0 h
  refine ⟨?_, rfl⟩
  obtain ⟨n, rfl⟩ : ∃ n, fuel = n + 1 := ⟨fuel - 1, by omega⟩
  have hrc : readContext (c4cfg pick) (c4cfg pick).s0 none [1, 2, 3] =
      ((), some (pointMass 4 4)) := rfl
  unfold generate
  rw [hrc]
  have hsc : stopCheck (c4cfg pick).lookup ((c4cfg pick).pick (pointMass 4 4)) =
      Except.ok true := by
    show stopCheck (c4cfg pick).lookup (pick (pointMass 4 4)) = Except.ok true
    rw [hp4]
    rfl
  simp only [sampleLoop, hsc]
  show Except.ok ([] ++ [pick (pointMass 4 4)]) = Except.ok [4]
  rw [hp4]
  rfl

/-- Witness for C4 with the sampler that deterministically picks id 4 and a
budget of one step. -/
theorem generate_point_mass_eos_returns_single_token_witness :
    0 < (pointMass 4 4).getD ((fun _ => 4 : Dist → Nat) (pointMass 4 4)) 0 ∧
    (generate (c4cfg (fun _ => 4)) none [1, 2, 3] 1 = Except.ok [4] ∧
      (readContext (c4cfg (fun _ => 4)) (c4cfg (fun _ => 4)).s0 none [1, 2, 3]).2 =
        some (pointMass 4 4)) :=
  ⟨by decide,
    generate_point_mass_eos_returns_single_token (fun _ => 4) (by decide) 1 (by decide)⟩

/-! ## C5: non-finite batch loss handling -/

/-- Counterexample to C5: with a NaN loss on the first mini-batch, the epoch
loop of cell-18 still processes the second batch (its loss `num 1` is
appended after the NaN) and reports `numpy.mean(losses) = NaN` — the epoch is
neither aborted nor is the non-finite value kept out of the reported mean. -/
theorem nan_loss_epoch_continues_counterexample :
    epochLossList cfg5 0 () [1, 2] = [Val.nan, Val.num 1] ∧
    epochMeanLoss cfg5 0 () [1, 2] = Val.nan := by
  decide

/-- C5 (amended): the epoch loop appends every mini-batch's loss, finite or
not, and runs to the end of the batch list (one loss per batch, no abort); if
any batch's loss is NaN, the reported epoch mean is NaN — the non-finite
value is folded into the mean rather than surfaced. -/
theorem nan_loss_folded_into_mean {P σ B O : Type} (cfg : TrainCfg P σ B O)
    (p : P) (s : σ) (bs : List B) :
    (epochLossList cfg p s bs).length = bs.length ∧
    (Val.nan ∈ epochLossList cfg p s bs → epochMeanLoss cfg p s bs = Val.nan) := by
  constructor
  · induction bs generalizing p s with
    | nil => rfl
    | cons b t ih => simp [epochLossList, ih]
  · intro h
    rw [epochMeanLoss, valMean, valSum_nan h]

/-- Witness for the amended C5 at the concrete diverging epoch. -/
theorem nan_loss_folded_into_mean_witness :
    (epochLossList cfg5 0 () [1, 2]).length = 2 ∧
    epochMeanLoss cfg5 0 () [1, 2] = Val.nan :=
  ⟨(nan_loss_folded_into_mean cfg5 0 () [1, 2]).1,
    (nan_loss_folded_into_mean cfg5 0 () [1, 2]).2 (by decide)⟩

/-! ## C6: padding round-trip -/

/-- C6: for every sequence `s` of positive token ids and every width `W` with
`s.length ≤ W`, left-padding `s` with zeros to width `W` and then stripping
the leading zeros returns exactly `s`; the padded row's rightmost entry is the
original sequence's last token, and zeros occupy only the leading
`W - s.length` positions. -/
theorem pad_strip_round_trip (s : List Nat) (W : Nat)
    (hpos : ∀ x ∈ s, 0 < x) (hlen : s.length ≤ W) :
    stripLeadingZeros (pad_sequences W s) = s ∧
    (s ≠ [] → (pad_sequences W s).getLast? = s.getLast?) ∧
    (∀ i, i < W → (pad_sequences W s).getD i 0 = 0 → i < W - s.length) := by
  have hpad := pad_sequences_eq W s hlen
  refine ⟨?_, ?_, ?_⟩
  · simp only [stripLeadingZeros]
    rw [hpad, dropWhile_zero_replicate, dropWhile_zero_of_pos s hpos]
  · intro hne
    rw [hpad]
    exact List.getLast?_append_of_ne_nil _ hne
  · intro i hi h0
    by_contra hk
    push_neg at hk
    rw [hpad, List.getD_append_right] at h0
    · simp only [List.length_replicate] at h0
      have hidx : i - (W - s.length) < s.length := by omega
      have hmem : s.getD (i - (W - s.length)) 0 ∈ s := by
        rw [List.getD_eq_getElem s 0 hidx]
        exact List.getElem_mem hidx
      have := hpos _ hmem
      omega
    · simp only [List.length_replicate]
      omega

/-- Witness for C6, at the concrete sequence `[5, 6]` padded to width 4. -/
theorem pad_strip_round_trip_witness :
    (∀ x ∈ ([5, 6] : List Nat), 0 < x) ∧
    (stripLeadingZeros (pad_sequences 4 [5, 6]) = [5, 6] ∧
      (([5, 6] : List Nat) ≠ [] →
        (pad_sequences 4 [5, 6]).getLast? = ([5, 6] : List Nat).getLast?) ∧
      (∀ i, i < 4 → (pad_sequences 4 [5, 6]).getD i 0 = 0 →
        i < 4 - ([5, 6] : List Nat).length)) :=
  ⟨by decide, pad_strip_round_trip [5, 6] 4 (by decide) (by decide)⟩

/-! ## C7: input/target offset invariant -/

/-- C7: for a padded row of width `W ≥ 1`, the training input (`row[:-1]`) and
target (`row[1:]`) both have length `W - 1`, and the target at position `t`
equals the input at position `t + 1` at every position where both are
defined. -/
theorem input_target_offset (row : List Nat) (W : Nat)
    (hW : row.length = W) (_h1 : 1 ≤ W) :
    (train_x row).length = W - 1 ∧ (train_y row).length = W - 1 ∧
    (∀ t, t + 1 < W - 1 →
      (train_y row).getD t 0 = (train_x row).getD (t + 1) 0) := by
  refine ⟨?_, ?_, ?_⟩
  · simp [train_x, hW]
  · simp [train_y, hW]
  · intro t ht
    have hyl : t < (train_y row).length := by simp [train_y, hW]; omega
    have hxl : t + 1 < (train_x row).length := by simp [train_x, hW]; omega
    rw [List.getD_eq_getElem _ 0 hyl, List.getD_eq_getElem _ 0 hxl]
    show (row.drop 1).get ⟨t, hyl⟩ = (row.dropLast).get ⟨t + 1, hxl⟩
    simp [List.getElem_drop, List.getElem_dropLast]

/-- Witness for C7, at the concrete row `[0, 5, 6, 7]` of width 4. -/
theorem input_target_offset_witness :
    ([0, 5, 6, 7] : List Nat).length = 4 ∧
    ((train_x [0, 5, 6, 7]).length = 3 ∧ (train_y [0, 5, 6, 7]).length = 3 ∧
      (∀ t, t + 1 < 3 →
        (train_y [0, 5, 6, 7]).getD t 0 = (train_x [0, 5, 6, 7]).getD (t + 1) 0)) :=
  ⟨by decide, input_target_offset [0, 5, 6, 7] 4 (by decide) (by decide)⟩

/-! ## C8: two-run state isolation -/

/-- C8: two-run state isolation.  For any architecture, any parameters and any
inputs `a` and `b`: predicting on `a`, calling `reset_states()`, then
predicting on `b` yields exactly the output that a freshly constructed model
with the same parameters yields on `b` — the second output is independent of
`a`'s content. -/
theorem state_isolation_after_reset {P σ I O : Type}
    (M : StatefulModel P σ I O) (p : P) (a b : I) :
    (predictSt M (reset_states M (predictSt M (freshModel M p) a).2) b).1 =
      (predictSt M (freshModel M p) b).1 :=
  rfl

/-! ## C9: empty context sequence -/

/-- Counterexample to C9: for an empty context sequence (on a fresh run,
where `p_next_word` was never assigned), `generate` does not draw its first
token from the model's zero-state distribution — the reading loop performs
zero `predict` calls, `p_next_word` is unbound at its first use, and the
sampling step fails with NameError instead of producing a token. -/
theorem empty_context_name_error_counterexample :
    generate cfg9 none [] 5 = Except.error GenError.nameError :=
  rfl

/-- C9 (amended): for an empty context sequence with no previously assigned
distribution, `generate` skips the reading phase and its first sampling step
fails with NameError (`p_next_word` referenced before assignment), for every
model configuration and every step budget — generation on an empty context is
not well-defined. -/
theorem empty_context_raises_name_error {σ : Type} (cfg : GenCfg σ)
    (fuel : Nat) :
    generate cfg none [] fuel = Except.error GenError.nameError :=
  rfl

/-! ## C10: decoding an id absent from the reverse lookup -/

/-- C10: decoding an id with no entry in `lexicon_lookup` fails loudly.  When
the reverse lookup is built from a `word_index` whose ids are all non-zero
(ids start at 1; 0 is the padding id) and the sampler draws id 0 — a possible
draw, since `numpy.random.choice(a=p_next_word.shape[-1], ...)` ranges over
all indices `0 .. lexicon_size` — the generation step raises KeyError rather
than emitting a token: the sampling loop returns an error, not a generated
sequence. -/
theorem missing_lexicon_id_fails {σ : Type} (cfg : GenCfg σ)
    (wi : List (String × Nat)) (hlk : cfg.lookup = mkLexiconLookup wi)
    (hwi : ∀ pr ∈ wi, pr.2 ≠ 0) (fuel : Nat) (hf : 0 < fuel) (s : σ)
    (d : Dist) (acc : List Nat) (hp : cfg.pick d = 0) :
    sampleLoop cfg fuel s d acc = Except.error (GenError.keyError 0) := by
  obtain ⟨n, rfl⟩ : ∃ n, fuel = n + 1 := ⟨fuel - 1, by omega⟩
  have hsc : stopCheck cfg.lookup (cfg.pick d) =
      Except.error (GenError.keyError 0) := by
    rw [hp, hlk]
    simp [stopCheck, mkLexiconLookup_zero wi hwi]
  simp only [sampleLoop, hsc]

/-- Witness for C10 at the scenario vocabulary with the sampler drawing the
padding id 0. -/
theorem missing_lexicon_id_fails_witness :
    cfg10.lookup = mkLexiconLookup demoWordIndex ∧
    (∀ pr ∈ demoWordIndex, pr.2 ≠ 0) ∧
    sampleLoop cfg10 1 () (pointMass 4 4) [] =
      Except.error (GenError.keyError 0) :=
  ⟨rfl, by decide,
    missing_lexicon_id_fails cfg10 demoWordIndex rfl (by decide) 1 (by decide)
      () (pointMass 4 4) [] rfl⟩

end KerasRNN
